import Mathlib

/-!
Shallow embedding of the cognitive_ai activity-monitoring pipeline:

* the per-domain metric extractors of `src/core/monitoring/cognitive_tracker.py`
  (`_analyze_memory_patterns`, `_analyze_executive_function`,
  `_analyze_language_patterns`, `_analyze_perception_action`);
* the multi-scale pattern analysis of `src/core/analysis/cognitive_patterns.py`
  (`_analyze_typing_pattern`, `_analyze_focus_pattern`, `_classify_micro_pattern`,
  `analyze_micro_patterns`, `_analyze_micro_window`, `_extract_context`);
* the resonance detection of `src/core/analysis/cognitive_resonance.py`
  (`_classify_resonance`, `detect_resonance`, `_merge_contexts`);
* the buffered event logger and monitor loop of
  `src/core/monitoring/interaction_tracker.py`
  (`_log_event`, `_flush_events`, `stop`, `_monitor_loop`).

Embedding conventions: Python float values are embedded as rationals (ℚ); a
Python dict of named float metrics is embedded as an association list
`List (String × ℚ)` in insertion order; a raw event dict is embedded as the
record `CTEvent` holding exactly the fields the analyzed functions read; a
raised exception that the analyzed function does not catch (the `IndexError`
in `_analyze_focus_pattern`) is embedded as an `Option` result, and the
success or failure of a file write (`IOError`/`OSError`) is embedded as an
explicit boolean argument.  `math.sqrt` (and the square root inside
`np.std`) operates on floats and is therefore abstracted as a function
parameter `sq : ℚ → ℚ`; the theorems below assume of it only that it maps
nonnegative inputs to nonnegative outputs.
-/

/-- A metrics dictionary: named scalar scores in insertion order. -/
abbrev Metrics := List (String × ℚ)

/-- Python `metrics[key]` on a metrics dict (default 0 for stating theorems;
the keys looked up below are always present). -/
def scoreOf (m : Metrics) (k : String) : ℚ := (m.lookup k).getD 0

/-- `np.mean` over a list of rationals. -/
def meanQ (l : List ℚ) : ℚ := l.sum / l.length

/-- Python `max` over a nonempty list of rationals. -/
def listMaxQ (l : List ℚ) : ℚ := l.foldl max l.headI

/-- Python `min` over a nonempty list of rationals. -/
def listMinQ (l : List ℚ) : ℚ := l.foldl min l.headI

/-- Python `max(items, key=lambda x: x[1])` starting from first element `b`:
returns the first pair with maximal second component (ties keep the earlier
element, as CPython's `max` does). -/
def pyMax {α : Type} (b : α × ℚ) : List (α × ℚ) → α × ℚ
  | [] => b
  | x :: rest => pyMax (if b.2 < x.2 then x else b) rest

/-- The weighted-condition loop shared by `_classify_micro_pattern` and
`_classify_resonance`: for each `(metric, condition, weight)` rule, add the
weight when the metric is present in the dict and its value satisfies the
condition; a rule whose metric is absent contributes nothing. -/
def ruleConfidence (m : Metrics) : List (String × (ℚ → Bool) × ℚ) → ℚ
  | [] => 0
  | (name, cond, w) :: rest =>
    (match m.lookup name with
     | some v => if cond v then w else 0
     | none => 0) + ruleConfidence m rest

/-- A raw interaction event: the fields of the Python event dicts that the
analyzed functions read.  `window_title` stands both for
`event['window_title']` (executive-function analysis; `none` when the key is
absent) and for `event.get('window_info', {}).get('title')` (focus analysis
and context extraction; `none` when absent), since the analyzed code only
ever compares and counts these values. -/
structure CTEvent where
  type : String := ""
  timestamp : ℚ := 0
  event_type : String := ""
  key : String := ""
  path : String := ""
  window_title : Option String := none
  position : ℚ × ℚ := (0, 0)
deriving Repr, DecidableEq, Inhabited

namespace CogTracker

/-- The `folder_sequence` built by `_analyze_memory_patterns`: the paths of
`file_access` events, in event order. -/
def folder_sequence (events : List CTEvent) : List String :=
  (events.filter (fun e => e.type == "file_access")).map (fun e => e.path)

/-- `incorrect_folder_attempts`: the number of positions where the newly
appended folder differs from the previous one. -/
def countAdjDistinct : List String → ℕ
  | a :: b :: rest => (if b = a then 0 else 1) + countAdjDistinct (b :: rest)
  | _ => 0

/-- `repeated_access_count`: scanning the folder sequence with a running
counter per folder, count every access whose folder was already seen. -/
def countRepeated : List String → List String → ℕ
  | _, [] => 0
  | seen, f :: rest => (if f ∈ seen then 1 else 0) + countRepeated (f :: seen) rest

def incorrect_folder_attempts (events : List CTEvent) : ℕ :=
  countAdjDistinct (folder_sequence events)

def repeated_access_count (events : List CTEvent) : ℕ :=
  countRepeated [] (folder_sequence events)

/-- `memory_score` of `_analyze_memory_patterns`: `max(0, 1 - error_ratio)`
when there is at least one event, else the initial 0. -/
def memory_score (events : List CTEvent) : ℚ :=
  if 0 < events.length then
    max 0 (1 - ((incorrect_folder_attempts events + repeated_access_count events : ℕ) : ℚ)
              / events.length)
  else 0

/-- `_analyze_memory_patterns`: the returned metrics dict (`save_frequency`
is initialized to 0.0 and never updated). -/
def analyze_memory_patterns (events : List CTEvent) : Metrics :=
  [("incorrect_folder_attempts", (incorrect_folder_attempts events : ℚ)),
   ("repeated_access_count", (repeated_access_count events : ℚ)),
   ("save_frequency", 0),
   ("memory_score", memory_score events)]

def window_switches (events : List CTEvent) : List CTEvent :=
  events.filter (fun e => e.type == "window_switch")

/-- `task_switching_frequency`: switches per minute over the span between the
first and last `window_switch` event; 0 when fewer than two switches or a
nonpositive span (the `try/except` around the computation cannot fire in this
embedding because timestamps are already numbers). -/
def task_switching_frequency (events : List CTEvent) : ℚ :=
  let ws := window_switches events
  if 1 < ws.length then
    let td := ws.getLastI.timestamp - ws.headI.timestamp
    if 0 < td then (ws.length : ℚ) / (td / 60) else 0
  else 0

/-- `multitasking_score`: the number of distinct `window_title` values seen
(a Python `set`), divided by 5 and capped at 1. -/
def multitasking_score (events : List CTEvent) : ℚ :=
  min (((events.filterMap (fun e => e.window_title)).dedup.length : ℚ) / 5) 1

def executive_score (events : List CTEvent) : ℚ :=
  (multitasking_score events + (1 - min (task_switching_frequency events / 10) 1)) / 2

/-- `_analyze_executive_function`: the returned metrics dict
(`organization_efficiency` is initialized to 0.0 and never updated). -/
def analyze_executive_function (events : List CTEvent) : Metrics :=
  [("task_switching_frequency", task_switching_frequency events),
   ("multitasking_score", multitasking_score events),
   ("organization_efficiency", 0),
   ("executive_score", executive_score events)]

def typing_events (events : List CTEvent) : List CTEvent :=
  events.filter (fun e => e.type == "keyboard")

/-- `typing_speed` of `_analyze_language_patterns`: `(char_count / 5)` words
per `(time_diff / 60)` minutes, 0 when there are no keyboard events or the
span is nonpositive. -/
def lang_typing_speed (events : List CTEvent) : ℚ :=
  let te := typing_events events
  if te.isEmpty then 0
  else
    let td := te.getLastI.timestamp - te.headI.timestamp
    if 0 < td then ((te.length : ℚ) / 5) / (td / 60) else 0

/-- `error_correction_rate`: backspace events over keyboard events. -/
def error_correction_rate (events : List CTEvent) : ℚ :=
  let te := typing_events events
  if te.isEmpty then 0
  else if 0 < te.length then
    (((te.filter (fun e => e.key == "backspace")).length : ℚ)) / te.length
  else 0

/-- `vocabulary_complexity`: average length of the words stored in the
tracker state `self.cognitive_metrics['vocabulary_usage']` (passed here as
the list `vocab` of its keys), divided by 10. -/
def vocabulary_complexity (vocab : List String) : ℚ :=
  let wl := vocab.map String.length
  if wl.isEmpty then 0 else (((wl.sum : ℕ) : ℚ) / wl.length) / 10

def language_score (events : List CTEvent) (vocab : List String) : ℚ :=
  (min (lang_typing_speed events / 60) 1 + (1 - error_correction_rate events)
    + vocabulary_complexity vocab) / 3

/-- `_analyze_language_patterns`: the returned metrics dict.  The function
reads tracker state (`vocabulary_usage`), so the embedding takes the stored
vocabulary as an extra argument. -/
def analyze_language_patterns (events : List CTEvent) (vocab : List String) : Metrics :=
  [("typing_speed", lang_typing_speed events),
   ("error_correction_rate", error_correction_rate events),
   ("vocabulary_complexity", vocabulary_complexity vocab),
   ("language_score", language_score events vocab)]

def mouse_moves (events : List CTEvent) : List CTEvent :=
  events.filter (fun e => e.type == "mouse" && e.event_type == "move")

def clicks (events : List CTEvent) : List CTEvent :=
  events.filter (fun e => e.type == "mouse" && e.event_type == "click")

/-- `math.sqrt((x2-x1)**2 + (y2-y1)**2)` with the square root abstracted. -/
def pdist (sq : ℚ → ℚ) (a b : CTEvent) : ℚ :=
  sq ((b.position.1 - a.position.1) ^ 2 + (b.position.2 - a.position.2) ^ 2)

/-- The `distances` list of `_analyze_perception_action`: distances between
consecutive mouse moves. -/
def move_distances (sq : ℚ → ℚ) (events : List CTEvent) : List ℚ :=
  ((mouse_moves events).zip (mouse_moves events).tail).map (fun p => pdist sq p.1 p.2)

/-- `np.std`: square root of the mean squared deviation. -/
def stdQ (sq : ℚ → ℚ) (l : List ℚ) : ℚ :=
  sq ((l.map (fun x => (x - meanQ l) ^ 2)).sum / l.length)

def mouse_precision (sq : ℚ → ℚ) (events : List CTEvent) : ℚ :=
  if 1 < (mouse_moves events).length then
    1 - min (stdQ sq (move_distances sq events) / 100) 1
  else 0

def movement_smoothness (sq : ℚ → ℚ) (events : List CTEvent) : ℚ :=
  if 1 < (mouse_moves events).length then
    1 - min (listMaxQ (move_distances sq events) / 500) 1
  else 0

/-- Python `l[-n:]`. -/
def lastN {α : Type} (n : ℕ) (l : List α) : List α := l.drop (l.length - n)

/-- `click_accuracy`: the fraction of clicks farther than 20 from each of the
last five mouse moves, subtracted from 1; only computed when both lists are
nonempty. -/
def click_accuracy (sq : ℚ → ℚ) (events : List CTEvent) : ℚ :=
  let cs := clicks events
  let mm := mouse_moves events
  if !cs.isEmpty && !mm.isEmpty then
    let mis := (cs.filter (fun c => (lastN 5 mm).any (fun m => decide (20 < pdist sq c m)))).length
    1 - (mis : ℚ) / cs.length
  else 0

def perception_score (sq : ℚ → ℚ) (events : List CTEvent) : ℚ :=
  (mouse_precision sq events + click_accuracy sq events + movement_smoothness sq events) / 3

/-- `_analyze_perception_action`: the returned metrics dict. -/
def analyze_perception_action (sq : ℚ → ℚ) (events : List CTEvent) : Metrics :=
  [("mouse_precision", mouse_precision sq events),
   ("click_accuracy", click_accuracy sq events),
   ("movement_smoothness", movement_smoothness sq events),
   ("perception_score", perception_score sq events)]

end CogTracker

namespace Patterns

inductive TimeScale
  | micro
  | meso
  | macroT
deriving Repr, DecidableEq, Inhabited

/-- The `CognitivePattern` dataclass (the `context` dict is embedded as the
optional most-common window title, see `CTEvent.window_title`). -/
structure CognitivePattern where
  scale : TimeScale
  start_time : ℚ
  end_time : ℚ
  pattern_type : String
  confidence : ℚ
  metrics : Metrics
  context : Option String
deriving Repr, DecidableEq, Inhabited

/-- `_analyze_typing_pattern` of `CognitivePatternAnalyzer`: zeroed dict on
empty input, else typing speed, error rate (backspace/delete), and pause
ratio (gaps above one second) over the window. -/
def analyze_typing_pattern (events : List CTEvent) : Metrics :=
  if events.isEmpty then [("typing_speed", 0), ("error_rate", 0), ("pause_ratio", 0)]
  else
    let charCount := (events.filter (fun e => e.event_type == "down")).length
    let duration := events.getLastI.timestamp - events.headI.timestamp
    let typingSpeed := if 0 < duration then (charCount : ℚ) / duration else 0
    let errorCount := (events.filter (fun e => e.key == "backspace" || e.key == "delete")).length
    let errorRate := if 0 < charCount then (errorCount : ℚ) / charCount else 0
    let pauses := ((events.zip events.tail).map (fun p => p.2.timestamp - p.1.timestamp)).filter
      (fun g => decide (1 < g))
    let pauseRatio := if 0 < duration then pauses.sum / duration else 0
    [("typing_speed", typingSpeed), ("error_rate", errorRate), ("pause_ratio", pauseRatio)]

/-- The `window_changes` index list of `_analyze_focus_pattern`: indices
`i ∈ [1, len)` whose window title differs from the previous event's. -/
def windowChanges (events : List CTEvent) : List ℕ :=
  (List.range events.length).filter (fun i =>
    decide (0 < i) && ((events.getD i default).window_title != (events.getD (i - 1) default).window_title))

/-- The `focus_durations` loop of `_analyze_focus_pattern`, with Python list
indexing embedded as `List.get?`: the source iterates over
`window_changes + [len(events)]`, so the final index is out of range and the
loop raises `IndexError` (embedded as `none`) for every nonempty input. -/
def focusDurations (events : List CTEvent) : List ℕ → ℕ → Option (List ℚ)
  | [], _ => some []
  | s :: rest, lastSwitch =>
    match events.get? s, events.get? lastSwitch with
    | some es, some el =>
      match focusDurations events rest s with
      | some ds => some ((es.timestamp - el.timestamp) :: ds)
      | none => none
    | _, _ => none

/-- `_analyze_focus_pattern`: zeroed dict on empty input; on nonempty input
the durations loop runs (and, per `focusDurations`, raises). -/
def analyze_focus_pattern (events : List CTEvent) : Option Metrics :=
  if events.isEmpty then some [("focus_switches", 0), ("avg_focus_duration", 0)]
  else
    let wc := windowChanges events
    match focusDurations events (wc ++ [events.length]) 0 with
    | none => none
    | some ds =>
      some [("focus_switches", (wc.length : ℚ)),
            ("avg_focus_duration", if ds.isEmpty then 0 else meanQ ds)]

/-- The `'flow_state'` rule set of `_classify_micro_pattern`. -/
def flow_state_rules : List (String × (ℚ → Bool) × ℚ) :=
  [("typing_speed", fun x => decide (2 < x), 3/10),
   ("error_rate", fun x => decide (x < 1/10), 2/10),
   ("pause_ratio", fun x => decide (x < 2/10), 2/10),
   ("focus_switches", fun x => decide (x < 2), 3/10)]

/-- The `'learning_moment'` rule set of `_classify_micro_pattern`. -/
def learning_moment_rules : List (String × (ℚ → Bool) × ℚ) :=
  [("typing_speed", fun x => decide (1/2 < x ∧ x < 2), 2/10),
   ("error_rate", fun x => decide (1/10 < x ∧ x < 3/10), 3/10),
   ("pause_ratio", fun x => decide (2/10 < x ∧ x < 4/10), 3/10),
   ("focus_switches", fun x => decide (2 < x ∧ x < 5), 2/10)]

/-- The `'confusion_state'` rule set of `_classify_micro_pattern`. -/
def confusion_state_rules : List (String × (ℚ → Bool) × ℚ) :=
  [("typing_speed", fun x => decide (x < 1/2), 2/10),
   ("error_rate", fun x => decide (3/10 < x), 3/10),
   ("pause_ratio", fun x => decide (4/10 < x), 2/10),
   ("focus_switches", fun x => decide (5 < x), 3/10)]

/-- `_classify_micro_pattern`: compute each rule set's summed matched weight
and return `max(confidences.items(), key=lambda x: x[1])`, whose tie-breaking
keeps the label inserted earlier (`flow_state`, then `learning_moment`, then
`confusion_state`). -/
def classify_micro_pattern (m : Metrics) : String × ℚ :=
  pyMax ("flow_state", ruleConfidence m flow_state_rules)
    [("learning_moment", ruleConfidence m learning_moment_rules),
     ("confusion_state", ruleConfidence m confusion_state_rules)]

/-- Occurrence count for `window_contexts.count`. -/
def countOcc (l : List (Option String)) (x : Option String) : ℕ :=
  (l.filter (fun y => y == x)).length

/-- `_extract_context`: the most common window context, Python `max` keeping
the earliest list element on ties. -/
def extract_context (events : List CTEvent) : Option String :=
  if events.isEmpty then none
  else
    let ctxs := events.map (fun e => e.window_title)
    ctxs.foldl (fun b x => if countOcc ctxs b < countOcc ctxs x then x else b) ctxs.headI

/-- `_analyze_micro_window`: `None` (inner `none`) on an empty window, else
min/max timestamps, typing metrics on keyboard events, focus metrics on
mouse/window events (which can raise, propagated as the outer `none`), merged
metrics, and classification. -/
def analyze_micro_window (events : List CTEvent) : Option (Option CognitivePattern) :=
  if events.isEmpty then some none
  else
    let timestamps := events.map (fun e => e.timestamp)
    let typingMetrics := analyze_typing_pattern (events.filter (fun e => e.type == "keyboard"))
    match analyze_focus_pattern (events.filter (fun e => e.type == "mouse" || e.type == "window")) with
    | none => none
    | some focusMetrics =>
      let metrics := typingMetrics ++ focusMetrics
      let pc := classify_micro_pattern metrics
      some (some
        { scale := TimeScale.micro,
          start_time := listMinQ timestamps,
          end_time := listMaxQ timestamps,
          pattern_type := pc.1,
          confidence := pc.2,
          metrics := metrics,
          context := extract_context events })

/-- The window-break test of `analyze_micro_patterns`:
`last_timestamp and event_time - last_timestamp > window_size` with a
one-minute window. -/
def gapExceeded (last : Option ℚ) (t : ℚ) : Bool :=
  match last with
  | some lt => decide (60 < t - lt)
  | none => false

/-- The event loop of `analyze_micro_patterns`: on a gap the completed window
is analyzed (skipped if empty; a `None` pattern is dropped, an exception
propagates) and a new window starts with the current event; the trailing
window is never analyzed. -/
def loopMicro : List CTEvent → Option ℚ → List CTEvent → Option (List CognitivePattern)
  | _, _, [] => some []
  | cur, last, e :: rest =>
    if gapExceeded last e.timestamp then
      match (if cur.isEmpty then some none else analyze_micro_window cur) with
      | none => none
      | some po =>
        match loopMicro [e] (some e.timestamp) rest with
        | none => none
        | some ps => some (po.toList ++ ps)
    else loopMicro (cur ++ [e]) (some e.timestamp) rest

/-- `analyze_micro_patterns`: run the event loop from an empty window and no
last timestamp. -/
def analyze_micro_patterns (events : List CTEvent) : Option (List CognitivePattern) :=
  loopMicro [] none events

/-- Declarative description of the loop's grouping, for comparison with
`analyze_micro_patterns`: split the event list into maximal runs whose
consecutive timestamps never exceed the one-minute gap. -/
def splitGapsGo : List CTEvent → ℚ → List CTEvent → List (List CTEvent)
  | cur, _, [] => [cur]
  | cur, t, e :: rest =>
    if gapExceeded (some t) e.timestamp then cur :: splitGapsGo [e] e.timestamp rest
    else splitGapsGo (cur ++ [e]) e.timestamp rest

/-- The gap-delimited groups of an event list (including the trailing group). -/
def splitGaps : List CTEvent → List (List CTEvent)
  | [] => []
  | e :: rest => splitGapsGo [e] e.timestamp rest

/-- Analyze a list of completed windows in order, dropping `None` patterns
and propagating exceptions. -/
def processGroups : List (List CTEvent) → Option (List CognitivePattern)
  | [] => some []
  | g :: gs =>
    match analyze_micro_window g with
    | none => none
    | some po =>
      match processGroups gs with
      | none => none
      | some ps => some (po.toList ++ ps)

end Patterns

namespace Resonance

inductive ResonanceType
  | learning
  | insight
  | integration
  | innovation
deriving Repr, DecidableEq, Inhabited

/-- The `CognitiveResonance` dataclass. -/
structure CognitiveResonance where
  type : ResonanceType
  strength : ℚ
  duration : ℚ
  patterns : List Patterns.CognitivePattern
  emergence_metrics : Metrics
  context : Option String
deriving Repr, DecidableEq, Inhabited

/-- The `ResonanceType.LEARNING` rule set of `_classify_resonance`. -/
def learning_rules : List (String × (ℚ → Bool) × ℚ) :=
  [("load_trend", fun x => decide (0 < x), 3/10),
   ("focus_stability", fun x => decide (x < 1/2), 2/10),
   ("pattern_coherence", fun x => decide (3/5 < x), 3/10),
   ("emergence_potential", fun x => decide (3/10 < x ∧ x < 7/10), 2/10)]

/-- The `ResonanceType.INSIGHT` rule set of `_classify_resonance`. -/
def insight_rules : List (String × (ℚ → Bool) × ℚ) :=
  [("load_trend", fun x => decide (x < 0), 2/10),
   ("focus_stability", fun x => decide (7/10 < x), 3/10),
   ("pattern_coherence", fun x => decide (4/5 < x), 2/10),
   ("emergence_potential", fun x => decide (7/10 < x), 3/10)]

/-- The `ResonanceType.INTEGRATION` rule set of `_classify_resonance`. -/
def integration_rules : List (String × (ℚ → Bool) × ℚ) :=
  [("load_trend", fun x => decide (-(1/5) < x ∧ x < 1/5), 1/4),
   ("focus_stability", fun x => decide (1/2 < x), 1/4),
   ("pattern_coherence", fun x => decide (2/5 < x ∧ x < 4/5), 1/4),
   ("emergence_potential", fun x => decide (2/5 < x ∧ x < 4/5), 1/4)]

/-- The `ResonanceType.INNOVATION` rule set of `_classify_resonance`. -/
def innovation_rules : List (String × (ℚ → Bool) × ℚ) :=
  [("load_trend", fun x => decide (1/5 < x), 1/5),
   ("focus_stability", fun x => decide (x < 3/10), 1/5),
   ("pattern_coherence", fun x => decide (x < 1/2), 1/5),
   ("emergence_potential", fun x => decide (4/5 < x), 2/5)]

/-- `_classify_resonance`: summed matched weights per resonance type, argmax
with Python `max` tie-breaking (dict insertion order: learning, insight,
integration, innovation). -/
def classify_resonance (m : Metrics) : ResonanceType × ℚ :=
  pyMax (ResonanceType.learning, ruleConfidence m learning_rules)
    [(ResonanceType.insight, ruleConfidence m insight_rules),
     (ResonanceType.integration, ruleConfidence m integration_rules),
     (ResonanceType.innovation, ruleConfidence m innovation_rules)]

/-- `_merge_contexts` under the window-title embedding of contexts: start
from the most recent context and fill from older ones. -/
def merge_contexts (ctxs : List (Option String)) : Option String :=
  if ctxs.isEmpty then none
  else ctxs.dropLast.reverse.foldl (fun m c => m <|> c) ctxs.getLastI

/-- Stable insertion of a pattern after all patterns with a smaller-or-equal
start time. -/
def insert_by_start (p : Patterns.CognitivePattern) :
    List Patterns.CognitivePattern → List Patterns.CognitivePattern
  | [] => [p]
  | q :: rest =>
    if q.start_time ≤ p.start_time then q :: insert_by_start p rest else p :: q :: rest

/-- `sorted(patterns, key=lambda p: p.start_time)`: a stable ascending sort
by start time (insertion sort, which agrees with CPython's stable sort). -/
def sort_by_start (ps : List Patterns.CognitivePattern) : List Patterns.CognitivePattern :=
  ps.foldl (fun acc p => insert_by_start p acc) []

/-- `detect_resonance` of `CognitiveFieldAnalyzer`.  The numeric metric
computation `_calculate_resonance_metrics` runs `np.polyfit`/`np.std`
floating-point kernels, so it is abstracted as the function argument
`calcMetrics`; the control flow around it — the size guard, sorting, the
classification, the 0.6 strength threshold, and the duration — is embedded
exactly. -/
def detect_resonance (calcMetrics : List Patterns.CognitivePattern → Metrics)
    (patterns : List Patterns.CognitivePattern) : Option CognitiveResonance :=
  if patterns.length < 2 then none
  else
    let sorted := sort_by_start patterns
    let metrics := calcMetrics sorted
    let rc := classify_resonance metrics
    if 6/10 < rc.2 then
      some { type := rc.1,
             strength := rc.2,
             duration := sorted.getLastI.end_time - sorted.headI.start_time,
             patterns := sorted,
             emergence_metrics := metrics,
             context := merge_contexts (sorted.map (fun p => p.context)) }
    else none

end Resonance

namespace Tracker

/-- The logging-related state of `InteractionTracker`: the running flag, the
in-memory `self.events` buffer, the two append-only files (`self.log_file`
written line-by-line inside `_log_event`, and the session log file written by
`_flush_events`), and the bookkeeping scalars used by the monitor loop. -/
structure TrackerState (α : Type) where
  is_running : Bool
  events : List α
  log_file : List α
  session_file : List α
  last_event_time : ℚ
  error_count : ℕ
  last_flush_time : ℚ
deriving Repr, DecidableEq, Inhabited

/-- `_flush_events`: nothing to do on an empty buffer; otherwise copy the
buffer, append it to the session file, and clear the buffer only if the write
succeeded (`writeOk`); on an `IOError` the buffer is kept unchanged. -/
def flush_events {α : Type} (st : TrackerState α) (writeOk : Bool) : TrackerState α :=
  if st.events.isEmpty then st
  else if writeOk then
    { st with session_file := st.session_file ++ st.events, events := [] }
  else st

/-- `_log_event`: a no-op when not running; on an `IOError` while writing the
line to `self.log_file` (`writeOk = false`) the event is stored in the
in-memory buffer instead and the function returns early; on a successful
write the event is appended to both the file and the buffer, and a buffer of
at least 100 events is flushed (the flush write succeeding iff `flushOk`). -/
def log_event {α : Type} (st : TrackerState α) (e : α) (now : ℚ)
    (writeOk flushOk : Bool) : TrackerState α :=
  if !st.is_running then st
  else if !writeOk then { st with events := st.events ++ [e] }
  else
    let st1 := { st with log_file := st.log_file ++ [e],
                         events := st.events ++ [e],
                         last_event_time := now }
    if 100 ≤ st1.events.length then flush_events st1 flushOk else st1

/-- `stop`: when running, clear the flag and flush the remaining events. -/
def stop {α : Type} (st : TrackerState α) (flushOk : Bool) : TrackerState α :=
  if st.is_running then flush_events { st with is_running := false } flushOk else st

/-- One iteration of `_monitor_loop` as a step function.  `iterOk` says
whether the iteration body raised; on success the 30-second periodic flush
runs (when due) and the error count resets to 0; on failure the error count
is incremented and, at `_max_errors = 3`, the tracker is stopped and the loop
exits.  The returned boolean is whether the loop continues. -/
def monitor_step {α : Type} (st : TrackerState α) (now : ℚ) (iterOk flushOk : Bool) :
    TrackerState α × Bool :=
  if !st.is_running then (st, false)
  else if iterOk then
    let st1 := if decide (30 < now - st.last_flush_time)
               then { flush_events st flushOk with last_flush_time := now }
               else st
    ({ st1 with error_count := 0 }, true)
  else
    let st1 := { st with error_count := st.error_count + 1 }
    if 3 ≤ st1.error_count then (stop st1 flushOk, false) else (st1, true)

end Tracker

/-- A failing flush write leaves the whole state unchanged. -/
theorem flush_events_io_error {α : Type} (st : Tracker.TrackerState α) :
    Tracker.flush_events st false = st := by
  unfold Tracker.flush_events
  split_ifs <;> first | rfl | contradiction

/-- Flushing never changes the running flag. -/
theorem flush_events_is_running {α : Type} (st : Tracker.TrackerState α) (b : Bool) :
    (Tracker.flush_events st b).is_running = st.is_running := by
  unfold Tracker.flush_events
  split_ifs <;> rfl

/-- Flushing never changes `log_file`. -/
theorem flush_events_log_file {α : Type} (st : Tracker.TrackerState α) (b : Bool) :
    (Tracker.flush_events st b).log_file = st.log_file := by
  unfold Tracker.flush_events
  split_ifs <;> rfl

/-- C2: if the file write inside `_log_event` raises an I/O error, the
exception is caught and the event is appended to the in-memory events buffer
rather than dropped (and no file changes); and if the write inside
`_flush_events` raises an I/O error, the buffered events remain in the buffer
unchanged — the buffer is cleared only after a successful write. -/
theorem log_event_io_error_retains_event {α : Type} (st : Tracker.TrackerState α)
    (e : α) (now : ℚ) (fOk : Bool) (h : st.is_running = true) :
    (Tracker.log_event st e now false fOk).events = st.events ++ [e]
    ∧ (Tracker.log_event st e now false fOk).log_file = st.log_file
    ∧ (Tracker.log_event st e now false fOk).session_file = st.session_file
    ∧ ∀ st2 : Tracker.TrackerState α, Tracker.flush_events st2 false = st2 := by
  refine ⟨?_, ?_, ?_, fun st2 => flush_events_io_error st2⟩ <;>
    simp [Tracker.log_event, h]

/-- Witness for C2 at a concrete state. -/
theorem log_event_io_error_retains_event_witness :
    (Tracker.log_event (⟨true, [], [], [], 0, 0, 0⟩ : Tracker.TrackerState ℕ)
      7 1 false true).events = [7] :=
  (log_event_io_error_retains_event (⟨true, [], [], [], 0, 0, 0⟩ : Tracker.TrackerState ℕ)
    7 1 true rfl).1

/-- C6: on the all-writes-succeed path, `_log_event` appends the event to the
buffer and to the log file; when the buffer size reaches 100 it flushes the
buffered events to the session log file and empties the buffer, and otherwise
the buffer keeps its contents; in either case the buffer ends with fewer than
100 events. -/
theorem log_event_success_buffer_bound {α : Type} (st : Tracker.TrackerState α)
    (e : α) (now : ℚ) (h : st.is_running = true) :
    (Tracker.log_event st e now true true).events.length < 100
    ∧ (Tracker.log_event st e now true true).log_file = st.log_file ++ [e]
    ∧ (100 ≤ st.events.length + 1 →
        (Tracker.log_event st e now true true).events = []
        ∧ (Tracker.log_event st e now true true).session_file
            = st.session_file ++ (st.events ++ [e]))
    ∧ (st.events.length + 1 < 100 →
        (Tracker.log_event st e now true true).events = st.events ++ [e]
        ∧ (Tracker.log_event st e now true true).session_file = st.session_file) := by
  by_cases hc : 100 ≤ st.events.length + 1
  · have hstep : Tracker.log_event st e now true true
        = { st with log_file := st.log_file ++ [e],
                    session_file := st.session_file ++ (st.events ++ [e]),
                    events := [], last_event_time := now } := by
      unfold Tracker.log_event Tracker.flush_events
      have h2 : (st.events ++ [e]).isEmpty = false := by simp
      simp [h, h2]
      omega
    rw [hstep]
    refine ⟨by simp, rfl, fun _ => ⟨rfl, rfl⟩, fun hlt => absurd hc (by omega)⟩
  · have hstep : Tracker.log_event st e now true true
        = { st with log_file := st.log_file ++ [e],
                    events := st.events ++ [e], last_event_time := now } := by
      unfold Tracker.log_event
      simp [h]
      intro hge
      exact absurd (by omega : 100 ≤ st.events.length + 1) hc
    rw [hstep]
    refine ⟨by simp; omega, rfl, fun hge => absurd hge hc, fun _ => ⟨rfl, rfl⟩⟩

/-- Witness for C6 at a concrete state. -/
theorem log_event_success_buffer_bound_witness :
    (Tracker.log_event (⟨true, [], [], [], 0, 0, 0⟩ : Tracker.TrackerState ℕ)
      7 1 true true).events.length < 100 :=
  (log_event_success_buffer_bound (⟨true, [], [], [], 0, 0, 0⟩ : Tracker.TrackerState ℕ)
    7 1 rfl).1

/-- C7: in the monitor loop's step relation, a successful iteration resets
the consecutive error count to 0 and keeps the tracker running; a failing
iteration that brings the count to `_max_errors = 3` (i.e. from an error
count of at least 2) stops the tracker and exits the loop; and a failing
iteration whose incremented count is still below 3 keeps the tracker running
with the incremented count — so only at least three consecutive errors are
fatal. -/
theorem monitor_loop_error_threshold {α : Type} (st : Tracker.TrackerState α)
    (now : ℚ) (fOk : Bool) (h : st.is_running = true) :
    ((Tracker.monitor_step st now true fOk).1.error_count = 0
      ∧ (Tracker.monitor_step st now true fOk).1.is_running = true
      ∧ (Tracker.monitor_step st now true fOk).2 = true)
    ∧ (2 ≤ st.error_count →
        (Tracker.monitor_step st now false fOk).1.is_running = false
        ∧ (Tracker.monitor_step st now false fOk).2 = false)
    ∧ (st.error_count + 1 < 3 →
        (Tracker.monitor_step st now false fOk).1.is_running = true
        ∧ (Tracker.monitor_step st now false fOk).1.error_count = st.error_count + 1
        ∧ (Tracker.monitor_step st now false fOk).2 = true) := by
  refine ⟨?_, ?_, ?_⟩
  · refine ⟨?_, ?_, ?_⟩ <;>
    · unfold Tracker.monitor_step
      split_ifs <;> simp_all [flush_events_is_running]
  · intro h2
    unfold Tracker.monitor_step Tracker.stop
    have h3 : (3 ≤ st.error_count + 1) = True := by
      simp only [eq_iff_iff, iff_true]; omega
    simp [h, h3, flush_events_is_running]
  · intro hlt
    unfold Tracker.monitor_step
    have h3 : (3 ≤ st.error_count + 1) = False := by
      simp only [eq_iff_iff, iff_false]; omega
    simp [h, h3]

theorem headI_mem_self {α : Type} [Inhabited α] (l : List α) (h : l ≠ []) : l.headI ∈ l := by
  cases l with
  | nil => exact absurd rfl h
  | cons a t => exact List.mem_cons_self a t

theorem le_foldl_max (l : List ℚ) : ∀ a : ℚ, a ≤ l.foldl max a := by
  induction l with
  | nil => intro a; exact le_refl a
  | cons x xs ih => intro a; exact le_trans (le_max_left a x) (ih (max a x))

/-- The Python `max` of a nonempty list of nonnegative rationals is
nonnegative. -/
theorem listMaxQ_nonneg (l : List ℚ) (hne : l ≠ []) (h : ∀ x ∈ l, 0 ≤ x) :
    0 ≤ listMaxQ l :=
  le_trans (h _ (headI_mem_self l hne)) (le_foldl_max l l.headI)

theorem memory_score_bounds (events : List CTEvent) :
    0 ≤ CogTracker.memory_score events ∧ CogTracker.memory_score events ≤ 1 := by
  unfold CogTracker.memory_score
  split_ifs with h
  · refine ⟨le_max_left 0 _, max_le (by norm_num) ?_⟩
    have hr : (0:ℚ) ≤ ((CogTracker.incorrect_folder_attempts events
        + CogTracker.repeated_access_count events : ℕ) : ℚ) / events.length := by
      positivity
    linarith
  · norm_num

theorem task_switching_frequency_nonneg (events : List CTEvent) :
    0 ≤ CogTracker.task_switching_frequency events := by
  simp only [CogTracker.task_switching_frequency]
  split_ifs with h1 h2
  · exact div_nonneg (Nat.cast_nonneg _) (div_nonneg (le_of_lt h2) (by norm_num))
  · exact le_refl 0
  · exact le_refl 0

theorem multitasking_score_bounds (events : List CTEvent) :
    0 ≤ CogTracker.multitasking_score events ∧ CogTracker.multitasking_score events ≤ 1 :=
  ⟨le_min (by positivity) (by norm_num), min_le_right _ _⟩

theorem executive_score_bounds (events : List CTEvent) :
    0 ≤ CogTracker.executive_score events ∧ CogTracker.executive_score events ≤ 1 := by
  unfold CogTracker.executive_score
  have h1 := multitasking_score_bounds events
  have h2 : 0 ≤ min (CogTracker.task_switching_frequency events / 10) 1 :=
    le_min (div_nonneg (task_switching_frequency_nonneg events) (by norm_num)) (by norm_num)
  have h3 : min (CogTracker.task_switching_frequency events / 10) 1 ≤ 1 := min_le_right _ _
  constructor <;> linarith [h1.1, h1.2]

theorem lang_typing_speed_nonneg (events : List CTEvent) :
    0 ≤ CogTracker.lang_typing_speed events := by
  simp only [CogTracker.lang_typing_speed]
  split_ifs with h1 h2
  · exact le_refl 0
  · exact div_nonneg (div_nonneg (Nat.cast_nonneg _) (by norm_num))
      (div_nonneg (le_of_lt h2) (by norm_num))
  · exact le_refl 0

theorem error_correction_rate_bounds (events : List CTEvent) :
    0 ≤ CogTracker.error_correction_rate events
    ∧ CogTracker.error_correction_rate events ≤ 1 := by
  simp only [CogTracker.error_correction_rate]
  split_ifs with h1 h2
  · exact ⟨le_refl 0, by norm_num⟩
  · have hpos : (0:ℚ) < (CogTracker.typing_events events).length := by exact_mod_cast h2
    refine ⟨div_nonneg (Nat.cast_nonneg _) (le_of_lt hpos), ?_⟩
    rw [div_le_one hpos]
    exact_mod_cast List.length_filter_le _ _
  · exact ⟨le_refl 0, by norm_num⟩

theorem vocabulary_complexity_nonneg (vocab : List String) :
    0 ≤ CogTracker.vocabulary_complexity vocab := by
  simp only [CogTracker.vocabulary_complexity]
  split_ifs with h1
  · exact le_refl 0
  · positivity

/-- `vocabulary_complexity` is at most 1 exactly when the stored words'
total length is at most ten times their number (average length at most 10). -/
theorem vocabulary_complexity_le_one (vocab : List String)
    (h : (vocab.map String.length).sum ≤ 10 * vocab.length) :
    CogTracker.vocabulary_complexity vocab ≤ 1 := by
  simp only [CogTracker.vocabulary_complexity]
  split_ifs with h1
  · norm_num
  · have hne : vocab.map String.length ≠ [] := by simpa using h1
    have hlen : (0:ℚ) < (vocab.map String.length).length := by
      exact_mod_cast List.length_pos.mpr hne
    rw [div_le_one (by norm_num : (0:ℚ) < 10), div_le_iff₀ hlen]
    have : ((vocab.map String.length).sum : ℚ) ≤ 10 * (vocab.map String.length).length := by
      rw [List.length_map]
      exact_mod_cast h
    linarith

theorem language_score_nonneg (events : List CTEvent) (vocab : List String) :
    0 ≤ CogTracker.language_score events vocab := by
  unfold CogTracker.language_score
  have h1 : 0 ≤ min (CogTracker.lang_typing_speed events / 60) 1 :=
    le_min (div_nonneg (lang_typing_speed_nonneg events) (by norm_num)) (by norm_num)
  have h2 := error_correction_rate_bounds events
  have h3 := vocabulary_complexity_nonneg vocab
  linarith [h2.1, h2.2]

theorem language_score_le_one (events : List CTEvent) (vocab : List String)
    (h : (vocab.map String.length).sum ≤ 10 * vocab.length) :
    CogTracker.language_score events vocab ≤ 1 := by
  unfold CogTracker.language_score
  have h1 : min (CogTracker.lang_typing_speed events / 60) 1 ≤ 1 := min_le_right _ _
  have h2 := error_correction_rate_bounds events
  have h3 := vocabulary_complexity_le_one vocab h
  linarith [h2.1, h2.2]

theorem move_distances_nonneg (sq : ℚ → ℚ) (hsq : ∀ x : ℚ, 0 ≤ x → 0 ≤ sq x)
    (events : List CTEvent) : ∀ d ∈ CogTracker.move_distances sq events, 0 ≤ d := by
  intro d hd
  simp only [CogTracker.move_distances, List.mem_map] at hd
  obtain ⟨p, hp, rfl⟩ := hd
  exact hsq _ (by positivity)

theorem stdQ_nonneg (sq : ℚ → ℚ) (hsq : ∀ x : ℚ, 0 ≤ x → 0 ≤ sq x) (l : List ℚ) :
    0 ≤ CogTracker.stdQ sq l := by
  unfold CogTracker.stdQ
  apply hsq
  apply div_nonneg _ (Nat.cast_nonneg _)
  apply List.sum_nonneg
  intro x hx
  simp only [List.mem_map] at hx
  obtain ⟨y, hy, rfl⟩ := hx
  positivity

theorem mouse_precision_bounds (sq : ℚ → ℚ) (hsq : ∀ x : ℚ, 0 ≤ x → 0 ≤ sq x)
    (events : List CTEvent) :
    0 ≤ CogTracker.mouse_precision sq events ∧ CogTracker.mouse_precision sq events ≤ 1 := by
  unfold CogTracker.mouse_precision
  split_ifs with h
  · have hs := stdQ_nonneg sq hsq (CogTracker.move_distances sq events)
    have h1 : 0 ≤ min (CogTracker.stdQ sq (CogTracker.move_distances sq events) / 100) 1 :=
      le_min (div_nonneg hs (by norm_num)) (by norm_num)
    have h2 : min (CogTracker.stdQ sq (CogTracker.move_distances sq events) / 100) 1 ≤ 1 :=
      min_le_right _ _
    constructor <;> linarith
  · constructor <;> norm_num

theorem move_distances_ne_nil (sq : ℚ → ℚ) (events : List CTEvent)
    (h : 1 < (CogTracker.mouse_moves events).length) :
    CogTracker.move_distances sq events ≠ [] := by
  unfold CogTracker.move_distances
  intro hc
  rw [List.map_eq_nil_iff] at hc
  have hlen := congrArg List.length hc
  rw [List.length_zip, List.length_tail] at hlen
  simp only [List.length_nil] at hlen
  omega

theorem movement_smoothness_bounds (sq : ℚ → ℚ) (hsq : ∀ x : ℚ, 0 ≤ x → 0 ≤ sq x)
    (events : List CTEvent) :
    0 ≤ CogTracker.movement_smoothness sq events
    ∧ CogTracker.movement_smoothness sq events ≤ 1 := by
  unfold CogTracker.movement_smoothness
  split_ifs with h
  · have hmax : 0 ≤ listMaxQ (CogTracker.move_distances sq events) :=
      listMaxQ_nonneg _ (move_distances_ne_nil sq events h)
        (move_distances_nonneg sq hsq events)
    have h1 : 0 ≤ min (listMaxQ (CogTracker.move_distances sq events) / 500) 1 :=
      le_min (div_nonneg hmax (by norm_num)) (by norm_num)
    have h2 : min (listMaxQ (CogTracker.move_distances sq events) / 500) 1 ≤ 1 :=
      min_le_right _ _
    constructor <;> linarith
  · constructor <;> norm_num

theorem click_accuracy_bounds (sq : ℚ → ℚ) (events : List CTEvent) :
    0 ≤ CogTracker.click_accuracy sq events ∧ CogTracker.click_accuracy sq events ≤ 1 := by
  simp only [CogTracker.click_accuracy]
  split_ifs with h
  · simp only [Bool.and_eq_true, Bool.not_eq_true'] at h
    have hne : CogTracker.clicks events ≠ [] := List.isEmpty_eq_false.mp h.1
    have hpos : (0:ℚ) < (CogTracker.clicks events).length := by
      exact_mod_cast List.length_pos.mpr hne
    have hle : ((CogTracker.clicks events).filter (fun c =>
        (CogTracker.lastN 5 (CogTracker.mouse_moves events)).any
          (fun m => decide (20 < CogTracker.pdist sq c m)))).length
        ≤ (CogTracker.clicks events).length := List.length_filter_le _ _
    have hfrac1 : (((CogTracker.clicks events).filter (fun c =>
        (CogTracker.lastN 5 (CogTracker.mouse_moves events)).any
          (fun m => decide (20 < CogTracker.pdist sq c m)))).length : ℚ)
        / (CogTracker.clicks events).length ≤ 1 := by
      rw [div_le_one hpos]
      exact_mod_cast hle
    have hfrac0 : (0:ℚ) ≤ (((CogTracker.clicks events).filter (fun c =>
        (CogTracker.lastN 5 (CogTracker.mouse_moves events)).any
          (fun m => decide (20 < CogTracker.pdist sq c m)))).length : ℚ)
        / (CogTracker.clicks events).length :=
      div_nonneg (Nat.cast_nonneg _) (le_of_lt hpos)
    constructor <;> linarith
  · constructor <;> norm_num

theorem perception_score_bounds (sq : ℚ → ℚ) (hsq : ∀ x : ℚ, 0 ≤ x → 0 ≤ sq x)
    (events : List CTEvent) :
    0 ≤ CogTracker.perception_score sq events ∧ CogTracker.perception_score sq events ≤ 1 := by
  unfold CogTracker.perception_score
  have h1 := mouse_precision_bounds sq hsq events
  have h2 := click_accuracy_bounds sq events
  have h3 := movement_smoothness_bounds sq hsq events
  constructor <;> linarith [h1.1, h1.2, h2.1, h2.2, h3.1, h3.2]

theorem scoreOf_memory (events : List CTEvent) :
    scoreOf (CogTracker.analyze_memory_patterns events) "memory_score"
      = CogTracker.memory_score events := by
  simp [scoreOf, CogTracker.analyze_memory_patterns, List.lookup]

theorem scoreOf_executive (events : List CTEvent) :
    scoreOf (CogTracker.analyze_executive_function events) "executive_score"
      = CogTracker.executive_score events := by
  simp [scoreOf, CogTracker.analyze_executive_function, List.lookup]

theorem scoreOf_language (events : List CTEvent) (vocab : List String) :
    scoreOf (CogTracker.analyze_language_patterns events vocab) "language_score"
      = CogTracker.language_score events vocab := by
  simp [scoreOf, CogTracker.analyze_language_patterns, List.lookup]

theorem scoreOf_perception (sq : ℚ → ℚ) (events : List CTEvent) :
    scoreOf (CogTracker.analyze_perception_action sq events) "perception_score"
      = CogTracker.perception_score sq events := by
  simp [scoreOf, CogTracker.analyze_perception_action, List.lookup]

/-- C1 (amended): every metric extractor returns a dict with all of its
documented keys in order; `memory_score`, `executive_score`, and
`perception_score` always lie in [0,1] (the latter for any square root
mapping nonnegatives to nonnegatives); `language_score` is always
nonnegative and lies in [0,1] whenever the tracker's stored vocabulary has
average word length at most 10 (i.e. `vocabulary_complexity ≤ 1`). -/
theorem extractor_keys_and_score_ranges (sq : ℚ → ℚ) (hsq : ∀ x : ℚ, 0 ≤ x → 0 ≤ sq x)
    (events : List CTEvent) (vocab : List String) :
    (CogTracker.analyze_memory_patterns events).map Prod.fst
      = ["incorrect_folder_attempts", "repeated_access_count", "save_frequency", "memory_score"]
    ∧ (CogTracker.analyze_executive_function events).map Prod.fst
      = ["task_switching_frequency", "multitasking_score", "organization_efficiency",
         "executive_score"]
    ∧ (CogTracker.analyze_language_patterns events vocab).map Prod.fst
      = ["typing_speed", "error_correction_rate", "vocabulary_complexity", "language_score"]
    ∧ (CogTracker.analyze_perception_action sq events).map Prod.fst
      = ["mouse_precision", "click_accuracy", "movement_smoothness", "perception_score"]
    ∧ (0 ≤ scoreOf (CogTracker.analyze_memory_patterns events) "memory_score"
        ∧ scoreOf (CogTracker.analyze_memory_patterns events) "memory_score" ≤ 1)
    ∧ (0 ≤ scoreOf (CogTracker.analyze_executive_function events) "executive_score"
        ∧ scoreOf (CogTracker.analyze_executive_function events) "executive_score" ≤ 1)
    ∧ (0 ≤ scoreOf (CogTracker.analyze_perception_action sq events) "perception_score"
        ∧ scoreOf (CogTracker.analyze_perception_action sq events) "perception_score" ≤ 1)
    ∧ 0 ≤ scoreOf (CogTracker.analyze_language_patterns events vocab) "language_score"
    ∧ ((vocab.map String.length).sum ≤ 10 * vocab.length →
        scoreOf (CogTracker.analyze_language_patterns events vocab) "language_score" ≤ 1) := by
  rw [scoreOf_memory, scoreOf_executive, scoreOf_language, scoreOf_perception]
  exact ⟨rfl, rfl, rfl, rfl,
    memory_score_bounds events,
    executive_score_bounds events,
    perception_score_bounds sq hsq events,
    language_score_nonneg events vocab,
    fun h => language_score_le_one events vocab h⟩

/-- Witness for C1 at concrete inputs (identity square root, no events,
empty vocabulary). -/
theorem extractor_keys_and_score_ranges_witness :
    0 ≤ scoreOf (CogTracker.analyze_language_patterns [] []) "language_score"
    ∧ scoreOf (CogTracker.analyze_language_patterns [] []) "language_score" ≤ 1 :=
  ⟨(extractor_keys_and_score_ranges (fun x => x) (fun _ hx => hx) [] []).2.2.2.2.2.2.2.1,
   (extractor_keys_and_score_ranges (fun x => x) (fun _ hx => hx) [] []).2.2.2.2.2.2.2.2
     (by decide)⟩

/-- C1 counterexample: with no events and a stored vocabulary holding one
30-character word, `_analyze_language_patterns` returns
`language_score = (0 + 1 + 3)/3 = 4/3`, outside [0,1]. -/
theorem language_score_exceeds_one :
    scoreOf (CogTracker.analyze_language_patterns []
      ["aaaaaaaaaaaaaaaaaaaaaaaaaaaaaa"]) "language_score" = 4/3
    ∧ ¬ ((4:ℚ)/3 ≤ 1) := by
  constructor
  · rw [scoreOf_language]
    simp only [CogTracker.language_score, CogTracker.lang_typing_speed,
      CogTracker.error_correction_rate, CogTracker.vocabulary_complexity,
      CogTracker.typing_events, List.filter_nil, List.isEmpty_nil, if_true,
      List.map_cons, List.map_nil]
    rw [show ("aaaaaaaaaaaaaaaaaaaaaaaaaaaaaa").length = 30 from rfl]
    norm_num
  · norm_num

/-- C3 counterexample: `_analyze_executive_function` on the empty event list
returns `executive_score = 1/2`, not the zeroed default. -/
theorem executive_score_nonzero_on_empty :
    scoreOf (CogTracker.analyze_executive_function []) "executive_score" = 1/2
    ∧ ¬ ((1:ℚ)/2 = 0) := by
  constructor
  · rw [scoreOf_executive]
    simp only [CogTracker.executive_score, CogTracker.multitasking_score,
      CogTracker.task_switching_frequency, CogTracker.window_switches,
      List.filter_nil, List.filterMap_nil, List.dedup_nil, List.length_nil]
    norm_num
  · norm_num

/-- C3 (amended): on an empty event list every extractor returns all its
keys, and the per-domain raw metrics are zero, but not every value is zero:
`_analyze_executive_function` returns `executive_score = 1/2` and
`_analyze_language_patterns` returns
`language_score = (1 + vocabulary_complexity)/3` (which also depends on the
tracker's stored vocabulary); the typing, focus, memory, and
perception/action extractors do return all-zero dicts. -/
theorem empty_input_extractor_values (sq : ℚ → ℚ) (vocab : List String) :
    CogTracker.analyze_memory_patterns []
      = [("incorrect_folder_attempts", 0), ("repeated_access_count", 0),
         ("save_frequency", 0), ("memory_score", 0)]
    ∧ CogTracker.analyze_executive_function []
      = [("task_switching_frequency", 0), ("multitasking_score", 0),
         ("organization_efficiency", 0), ("executive_score", 1/2)]
    ∧ CogTracker.analyze_perception_action sq []
      = [("mouse_precision", 0), ("click_accuracy", 0),
         ("movement_smoothness", 0), ("perception_score", 0)]
    ∧ scoreOf (CogTracker.analyze_language_patterns [] vocab) "typing_speed" = 0
    ∧ scoreOf (CogTracker.analyze_language_patterns [] vocab) "error_correction_rate" = 0
    ∧ scoreOf (CogTracker.analyze_language_patterns [] vocab) "language_score"
        = (1 + CogTracker.vocabulary_complexity vocab) / 3
    ∧ Patterns.analyze_typing_pattern []
        = [("typing_speed", 0), ("error_rate", 0), ("pause_ratio", 0)]
    ∧ Patterns.analyze_focus_pattern []
        = some [("focus_switches", 0), ("avg_focus_duration", 0)] := by
  have hmin : min ((0:ℚ)/60) 1 = 0 := by norm_num
  refine ⟨?_, ?_, ?_, ?_, ?_, ?_, ?_, ?_⟩
  · simp [CogTracker.analyze_memory_patterns, CogTracker.incorrect_folder_attempts,
      CogTracker.repeated_access_count, CogTracker.folder_sequence,
      CogTracker.countAdjDistinct, CogTracker.countRepeated, CogTracker.memory_score]
  · simp only [CogTracker.analyze_executive_function, CogTracker.executive_score,
      CogTracker.multitasking_score, CogTracker.task_switching_frequency,
      CogTracker.window_switches, List.filter_nil, List.filterMap_nil,
      List.dedup_nil, List.length_nil]
    norm_num
  · simp only [CogTracker.analyze_perception_action, CogTracker.perception_score,
      CogTracker.mouse_precision, CogTracker.movement_smoothness,
      CogTracker.click_accuracy, CogTracker.mouse_moves, CogTracker.clicks,
      List.filter_nil, List.length_nil, List.isEmpty_nil]
    norm_num
  · simp [scoreOf, CogTracker.analyze_language_patterns, List.lookup,
      CogTracker.lang_typing_speed, CogTracker.typing_events]
  · simp [scoreOf, CogTracker.analyze_language_patterns, List.lookup,
      CogTracker.error_correction_rate, CogTracker.typing_events]
  · rw [scoreOf_language]
    simp only [CogTracker.language_score, CogTracker.lang_typing_speed,
      CogTracker.error_correction_rate, CogTracker.typing_events,
      List.filter_nil, List.isEmpty_nil, if_true, hmin]
    ring
  · rfl
  · rfl

/-- A matched-weight sum is nonnegative when all weights are. -/
theorem ruleConfidence_nonneg (m : Metrics) (rules : List (String × (ℚ → Bool) × ℚ))
    (h : ∀ r ∈ rules, 0 ≤ r.2.2) : 0 ≤ ruleConfidence m rules := by
  induction rules with
  | nil => simp [ruleConfidence]
  | cons r rest ih =>
    obtain ⟨name, cond, w⟩ := r
    have hw : 0 ≤ w := h _ (List.mem_cons_self _ _)
    have hrest := ih (fun x hx => h x (List.mem_cons_of_mem _ hx))
    have hcontrib : 0 ≤ (match m.lookup name with
        | some v => if cond v then w else 0
        | none => 0) := by
      cases m.lookup name with
      | none => exact le_refl 0
      | some v =>
        dsimp only
        split_ifs
        · exact hw
        · exact le_refl 0
    simp only [ruleConfidence]
    linarith

/-- A matched-weight sum never exceeds the sum of all weights. -/
theorem ruleConfidence_le_sum (m : Metrics) (rules : List (String × (ℚ → Bool) × ℚ))
    (h : ∀ r ∈ rules, 0 ≤ r.2.2) :
    ruleConfidence m rules ≤ (rules.map (fun r => r.2.2)).sum := by
  induction rules with
  | nil => simp [ruleConfidence]
  | cons r rest ih =>
    obtain ⟨name, cond, w⟩ := r
    have hw : 0 ≤ w := h _ (List.mem_cons_self _ _)
    have hrest := ih (fun x hx => h x (List.mem_cons_of_mem _ hx))
    have hcontrib : (match m.lookup name with
        | some v => if cond v then w else 0
        | none => 0) ≤ w := by
      cases m.lookup name with
      | none => exact hw
      | some v =>
        dsimp only
        split_ifs
        · exact le_refl w
        · exact hw
    simp only [ruleConfidence, List.map_cons, List.sum_cons]
    linarith

theorem flow_weights_nonneg : ∀ r ∈ Patterns.flow_state_rules, 0 ≤ r.2.2 := by
  intro r hr
  simp only [Patterns.flow_state_rules, List.mem_cons, List.not_mem_nil, or_false] at hr
  rcases hr with rfl | rfl | rfl | rfl <;> norm_num

theorem learning_weights_nonneg : ∀ r ∈ Patterns.learning_moment_rules, 0 ≤ r.2.2 := by
  intro r hr
  simp only [Patterns.learning_moment_rules, List.mem_cons, List.not_mem_nil, or_false] at hr
  rcases hr with rfl | rfl | rfl | rfl <;> norm_num

theorem confusion_weights_nonneg : ∀ r ∈ Patterns.confusion_state_rules, 0 ≤ r.2.2 := by
  intro r hr
  simp only [Patterns.confusion_state_rules, List.mem_cons, List.not_mem_nil, or_false] at hr
  rcases hr with rfl | rfl | rfl | rfl <;> norm_num

/-- Each rule set's four weights sum to exactly 1. -/
theorem micro_rule_weight_sums :
    (Patterns.flow_state_rules.map (fun r => r.2.2)).sum = 1
    ∧ (Patterns.learning_moment_rules.map (fun r => r.2.2)).sum = 1
    ∧ (Patterns.confusion_state_rules.map (fun r => r.2.2)).sum = 1 := by
  refine ⟨?_, ?_, ?_⟩ <;>
    · simp [Patterns.flow_state_rules, Patterns.learning_moment_rules,
        Patterns.confusion_state_rules]
      norm_num

/-- C4: `_classify_micro_pattern` computes, for each named rule set, the sum
of the weights of the conditions the metrics satisfy, and returns the label
with the maximal sum together with that sum as the confidence; on ties the
label earlier in rule-set iteration order (`flow_state`, `learning_moment`,
`confusion_state`) wins. -/
theorem classify_micro_pattern_argmax (m : Metrics) :
    (Patterns.classify_micro_pattern m).2
      = max (ruleConfidence m Patterns.flow_state_rules)
          (max (ruleConfidence m Patterns.learning_moment_rules)
            (ruleConfidence m Patterns.confusion_state_rules))
    ∧ (ruleConfidence m Patterns.learning_moment_rules
          ≤ ruleConfidence m Patterns.flow_state_rules →
        ruleConfidence m Patterns.confusion_state_rules
          ≤ ruleConfidence m Patterns.flow_state_rules →
        Patterns.classify_micro_pattern m
          = ("flow_state", ruleConfidence m Patterns.flow_state_rules))
    ∧ (ruleConfidence m Patterns.flow_state_rules
          < ruleConfidence m Patterns.learning_moment_rules →
        ruleConfidence m Patterns.confusion_state_rules
          ≤ ruleConfidence m Patterns.learning_moment_rules →
        Patterns.classify_micro_pattern m
          = ("learning_moment", ruleConfidence m Patterns.learning_moment_rules))
    ∧ (ruleConfidence m Patterns.flow_state_rules
          < ruleConfidence m Patterns.confusion_state_rules →
        ruleConfidence m Patterns.learning_moment_rules
          < ruleConfidence m Patterns.confusion_state_rules →
        Patterns.classify_micro_pattern m
          = ("confusion_state", ruleConfidence m Patterns.confusion_state_rules)) := by
  refine ⟨?_, ?_, ?_, ?_⟩ <;>
    simp only [Patterns.classify_micro_pattern, pyMax]
  · split_ifs <;> simp [max_def] <;> split_ifs <;> first | rfl | linarith
  · intro h1 h2
    split_ifs <;> first | rfl | (exfalso; linarith)
  · intro h1 h2
    split_ifs <;> first | rfl | (exfalso; linarith)
  · intro h1 h2
    split_ifs <;> first | rfl | (exfalso; linarith)

/-- Witness for C4: with an empty metrics dict every confidence is 0, the
tie, and `flow_state` wins by iteration order. -/
theorem classify_micro_pattern_argmax_witness :
    Patterns.classify_micro_pattern []
      = ("flow_state", ruleConfidence [] Patterns.flow_state_rules) :=
  (classify_micro_pattern_argmax []).2.1 (le_refl _) (le_refl _)

/-- C8: pattern classification is deterministic — equal metrics dicts give
equal `(pattern_type, confidence)` results under the fixed built-in rule
order. -/
theorem classify_micro_pattern_deterministic (m1 m2 : Metrics) (h : m1 = m2) :
    Patterns.classify_micro_pattern m1 = Patterns.classify_micro_pattern m2 := by
  rw [h]

/-- Witness for C8 at a concrete metrics dict. -/
theorem classify_micro_pattern_deterministic_witness :
    Patterns.classify_micro_pattern [("typing_speed", 3)]
      = Patterns.classify_micro_pattern [("typing_speed", 3)] :=
  classify_micro_pattern_deterministic [("typing_speed", 3)] [("typing_speed", 3)] rfl

/-- C10: the label returned by `_classify_micro_pattern` is one of exactly
`flow_state`, `learning_moment`, `confusion_state`, and the returned
confidence lies in `[0, 1]` because each rule set's weights sum to 1. -/
theorem classify_micro_pattern_label_and_range (m : Metrics) :
    ((Patterns.classify_micro_pattern m).1 = "flow_state"
      ∨ (Patterns.classify_micro_pattern m).1 = "learning_moment"
      ∨ (Patterns.classify_micro_pattern m).1 = "confusion_state")
    ∧ 0 ≤ (Patterns.classify_micro_pattern m).2
    ∧ (Patterns.classify_micro_pattern m).2 ≤ 1 := by
  have hf0 := ruleConfidence_nonneg m _ flow_weights_nonneg
  have hl0 := ruleConfidence_nonneg m _ learning_weights_nonneg
  have hc0 := ruleConfidence_nonneg m _ confusion_weights_nonneg
  have hf1 := ruleConfidence_le_sum m _ flow_weights_nonneg
  have hl1 := ruleConfidence_le_sum m _ learning_weights_nonneg
  have hc1 := ruleConfidence_le_sum m _ confusion_weights_nonneg
  rw [micro_rule_weight_sums.1] at hf1
  rw [micro_rule_weight_sums.2.1] at hl1
  rw [micro_rule_weight_sums.2.2] at hc1
  have hcases : Patterns.classify_micro_pattern m
      = ("flow_state", ruleConfidence m Patterns.flow_state_rules)
      ∨ Patterns.classify_micro_pattern m
      = ("learning_moment", ruleConfidence m Patterns.learning_moment_rules)
      ∨ Patterns.classify_micro_pattern m
      = ("confusion_state", ruleConfidence m Patterns.confusion_state_rules) := by
    simp only [Patterns.classify_micro_pattern, pyMax]
    split_ifs <;> simp
  rcases hcases with h | h | h <;> rw [h]
  · exact ⟨Or.inl rfl, hf0, hf1⟩
  · exact ⟨Or.inr (Or.inl rfl), hl0, hl1⟩
  · exact ⟨Or.inr (Or.inr rfl), hc0, hc1⟩

/-- C9: `detect_resonance` returns `None` for every input with fewer than
two patterns; and any returned `CognitiveResonance` has strength above 0.6
and duration equal to the last pattern's end time minus the first pattern's
start time after sorting the input by start time — for every (abstracted)
metrics computation. -/
theorem detect_resonance_guard
    (calcMetrics : List Patterns.CognitivePattern → Metrics)
    (patterns : List Patterns.CognitivePattern) :
    (patterns.length < 2 → Resonance.detect_resonance calcMetrics patterns = none)
    ∧ (∀ r : Resonance.CognitiveResonance,
        Resonance.detect_resonance calcMetrics patterns = some r →
        6/10 < r.strength
        ∧ r.duration = (Resonance.sort_by_start patterns).getLastI.end_time
            - (Resonance.sort_by_start patterns).headI.start_time) := by
  constructor
  · intro h
    unfold Resonance.detect_resonance
    rw [if_pos h]
  · intro r hr
    simp only [Resonance.detect_resonance] at hr
    split_ifs at hr with h1 h2
    injection hr with hr
    subst hr
    exact ⟨h2, rfl⟩

/-- Witness for C9 at a concrete input (empty pattern list, trivial metrics
computation). -/
theorem detect_resonance_guard_witness :
    Resonance.detect_resonance (fun _ => []) [] = none :=
  (detect_resonance_guard (fun _ => []) []).1 (by decide)

theorem splitGapsGo_ne_nil (rest : List CTEvent) : ∀ (cur : List CTEvent) (t : ℚ),
    Patterns.splitGapsGo cur t rest ≠ [] := by
  induction rest with
  | nil => intro cur t; simp [Patterns.splitGapsGo]
  | cons e rest ih =>
    intro cur t
    simp only [Patterns.splitGapsGo]
    split_ifs
    · exact List.cons_ne_nil _ _
    · exact ih _ _

/-- The gap-delimited groups concatenate back to the input: every event lies
in exactly one group. -/
theorem splitGapsGo_flatten (rest : List CTEvent) : ∀ (cur : List CTEvent) (t : ℚ),
    (Patterns.splitGapsGo cur t rest).flatten = cur ++ rest := by
  induction rest with
  | nil => intro cur t; simp [Patterns.splitGapsGo]
  | cons e rest ih =>
    intro cur t
    simp only [Patterns.splitGapsGo]
    split_ifs
    · simp [ih]
    · simp [ih]

/-- The imperative window loop equals: analyze each completed gap-delimited
group, never the trailing one. -/
theorem loopMicro_eq_processGroups (rest : List CTEvent) : ∀ (cur : List CTEvent) (t : ℚ),
    cur ≠ [] →
    Patterns.loopMicro cur (some t) rest
      = Patterns.processGroups ((Patterns.splitGapsGo cur t rest).dropLast) := by
  induction rest with
  | nil =>
    intro cur t hcur
    simp [Patterns.loopMicro, Patterns.splitGapsGo, Patterns.processGroups]
  | cons e rest ih =>
    intro cur t hcur
    simp only [Patterns.loopMicro, Patterns.splitGapsGo]
    by_cases hg : Patterns.gapExceeded (some t) e.timestamp = true
    · rw [if_pos hg, if_pos hg,
        List.dropLast_cons_of_ne_nil (splitGapsGo_ne_nil rest [e] e.timestamp)]
      have hne : cur.isEmpty = false := by simpa using hcur
      rw [ih [e] e.timestamp (List.cons_ne_nil _ _)]
      simp only [hne, Bool.false_eq_true, if_false, Patterns.processGroups]
    · rw [if_neg hg, if_neg hg]
      exact ih (cur ++ [e]) e.timestamp (by simp)

/-- C5 (amended): `analyze_micro_patterns` does not use fixed one-minute
windows; it splits the input where consecutive events are more than 60
seconds apart, analyzes every completed gap-delimited group, and never
analyzes the trailing group — so the patterns returned are exactly those of
the non-final groups, every event belongs to exactly one gap-delimited
group (the groups concatenate to the input), and the (always nonempty)
trailing group's events are left unassigned. -/
theorem analyze_micro_patterns_gap_grouping (events : List CTEvent) :
    Patterns.analyze_micro_patterns events
      = Patterns.processGroups ((Patterns.splitGaps events).dropLast)
    ∧ (Patterns.splitGaps events).flatten = events
    ∧ (events ≠ [] → Patterns.splitGaps events ≠ []) := by
  cases events with
  | nil => exact ⟨rfl, rfl, fun h => absurd rfl h⟩
  | cons e rest =>
    refine ⟨?_, ?_, fun _ => ?_⟩
    · show Patterns.loopMicro [] none (e :: rest) = _
      simp only [Patterns.loopMicro, Patterns.gapExceeded, Bool.false_eq_true, if_false,
        List.nil_append, Patterns.splitGaps]
      exact loopMicro_eq_processGroups rest [e] e.timestamp (List.cons_ne_nil _ _)
    · simpa [Patterns.splitGaps] using splitGapsGo_flatten rest [e] e.timestamp
    · simp only [Patterns.splitGaps]
      exact splitGapsGo_ne_nil rest [e] e.timestamp

/-- Witness for C5's amended statement at a concrete one-event input. -/
theorem analyze_micro_patterns_gap_grouping_witness :
    Patterns.splitGaps [{ type := "keyboard", timestamp := 0 }] ≠ [] :=
  (analyze_micro_patterns_gap_grouping [{ type := "keyboard", timestamp := 0 }]).2.2
    (by simp)

/-- C5 counterexample: for keyboard events at timestamps 0, 50, 100, 200 the
analyzer returns exactly one pattern, spanning 0 to 100 — more than 60
seconds — and the event at 200 (the trailing group) is in no analyzed
window. -/
theorem micro_pattern_window_span_exceeds_minute :
    (Patterns.analyze_micro_patterns
      [{ type := "keyboard", timestamp := 0, event_type := "down", key := "a" },
       { type := "keyboard", timestamp := 50, event_type := "down", key := "a" },
       { type := "keyboard", timestamp := 100, event_type := "down", key := "a" },
       { type := "keyboard", timestamp := 200, event_type := "down", key := "a" }]).map
        (fun l => l.map (fun p => (p.start_time, p.end_time)))
      = some [(0, 100)]
    ∧ ¬ ((100:ℚ) - 0 ≤ 60) := by
  constructor
  · have hm : ("keyboard" = "mouse") = False := by simp
    have hw : ("keyboard" = "window") = False := by simp
    have hk : ("keyboard" = "keyboard") = True := by simp
    norm_num [Patterns.analyze_micro_patterns, Patterns.loopMicro, Patterns.gapExceeded,
      Patterns.analyze_micro_window, Patterns.analyze_focus_pattern,
      Patterns.analyze_typing_pattern, listMinQ, listMaxQ, min_def, max_def, hm, hw, hk]
  · norm_num

/-- Witness for C7 at a concrete state. -/
theorem monitor_loop_error_threshold_witness :
    (Tracker.monitor_step (⟨true, [], [], [], 0, 0, 0⟩ : Tracker.TrackerState ℕ)
      0 false true).1.error_count = 1 :=
  ((monitor_loop_error_threshold (⟨true, [], [], [], 0, 0, 0⟩ : Tracker.TrackerState ℕ)
    0 true rfl).2.2 (by decide)).2.1
